import Mathlib

/-!
Verification of the chunked-transcription engine of `src/transcriber.py`
(TrackGPT).  Python floats are modelled as exact rationals (`ℚ`); the
external collaborators (duration probe, segment extractor, transcription
service, filesystem) are modelled as explicit oracles recorded in an `Env`.
A raised exception is modelled by the `Except.error` branch; the message of
a `RuntimeError` is the carried string.
-/

namespace TrackGPT

/-- Constant `CHUNK_SIZE_LIMIT = 24 * 1024 * 1024` (bytes), `transcriber.py` line 15. -/
def CHUNK_SIZE_LIMIT : ℕ := 24 * 1024 * 1024

/-- Constant `DEFAULT_OVERLAP_SECONDS = 2`, `transcriber.py` line 16. -/
def DEFAULT_OVERLAP_SECONDS : ℚ := 2

/-- Line 72: `avg_bitrate = (file_size * 8) / total_duration`. -/
def avgBitrate (fileSize : ℕ) (totalDuration : ℚ) : ℚ :=
  (fileSize * 8 : ℚ) / totalDuration

/-- Line 73: `max_chunk_duration = (CHUNK_SIZE_LIMIT * 8) / avg_bitrate * 0.95`. -/
def maxChunkDuration (fileSize : ℕ) (totalDuration : ℚ) : ℚ :=
  (CHUNK_SIZE_LIMIT * 8 : ℚ) / avgBitrate fileSize totalDuration * (95 / 100)

/-- Line 74: `effective_chunk_duration = max(max_chunk_duration - overlap_seconds, 0.1)`. -/
def effectiveChunkDuration (maxDur overlap : ℚ) : ℚ :=
  max (maxDur - overlap) (1 / 10)

/-- Line 75: `num_chunks = math.ceil(total_duration / effective_chunk_duration)`.
`Int.toNat` mirrors `range(num_chunks)` being empty for a non-positive count. -/
def numChunks (eff total : ℚ) : ℕ :=
  (⌈total / eff⌉ : ℤ).toNat

/-- The chunk intervals produced by the loop of lines 84–89, starting at index
`i` with `fuel` iterations left: `start = i * eff`; break when
`start ≥ total`; `end = min(total, start + maxDur)`. -/
def planChunksFrom (maxDur eff total : ℚ) : ℕ → ℕ → List (ℚ × ℚ)
  | _, 0 => []
  | i, fuel + 1 =>
    if total ≤ (i : ℚ) * eff then []
    else ((i : ℚ) * eff, min total ((i : ℚ) * eff + maxDur)) ::
      planChunksFrom maxDur eff total (i + 1) fuel

/-- The full chunk plan of `_transcribe_large_file` (lines 75, 84–89). -/
def plan (maxDur eff total : ℚ) : List (ℚ × ℚ) :=
  planChunksFrom maxDur eff total 0 (numChunks eff total)

/-! ### Planner helper lemmas -/

lemma effectiveChunkDuration_pos (m ov : ℚ) : 0 < effectiveChunkDuration m ov :=
  lt_of_lt_of_le (by norm_num) (le_max_right _ _)

lemma start_lt_total {eff total : ℚ} (heff : 0 < eff) {i : ℕ}
    (hi : i < numChunks eff total) : (i : ℚ) * eff < total := by
  have h1 : ((i : ℤ) : ℚ) < total / eff := Int.lt_ceil.mp (Int.lt_toNat.mp hi)
  have h2 : (i : ℚ) < total / eff := by exact_mod_cast h1
  exact (lt_div_iff heff).mp h2

lemma numChunks_pos {eff total : ℚ} (heff : 0 < eff) (htot : 0 < total) :
    0 < numChunks eff total :=
  Int.lt_toNat.mpr (by exact_mod_cast Int.ceil_pos.mpr (div_pos htot heff))

lemma total_le_numChunks_mul {eff total : ℚ} (heff : 0 < eff) :
    total ≤ (numChunks eff total : ℚ) * eff := by
  rcases le_or_lt total 0 with h | h
  · exact h.trans (by positivity)
  · have h1 : total / eff ≤ ((numChunks eff total : ℤ) : ℚ) := by
      rw [numChunks, Int.toNat_of_nonneg (Int.ceil_nonneg (le_of_lt (div_pos h heff)))]
      exact Int.le_ceil _
    have h2 : total / eff ≤ (numChunks eff total : ℚ) := by exact_mod_cast h1
    exact (div_le_iff heff).mp h2

lemma numChunks_eq_of {eff total : ℚ} {k : ℕ} (h1 : (k : ℚ) - 1 < total / eff)
    (h2 : total / eff ≤ (k : ℚ)) : numChunks eff total = k := by
  rw [numChunks]
  have hc : ⌈total / eff⌉ = (k : ℤ) := by
    rw [Int.ceil_eq_iff]
    constructor
    · push_cast
      exact h1
    · push_cast
      exact h2
  rw [hc]
  exact Int.toNat_natCast k

lemma planChunksFrom_eq (m eff total : ℚ) :
    ∀ (fuel i : ℕ), (∀ j, i ≤ j → j < i + fuel → (j : ℚ) * eff < total) →
      planChunksFrom m eff total i fuel =
        (List.range' i fuel).map
          (fun (j : ℕ) => ((j : ℚ) * eff, min total ((j : ℚ) * eff + m)))
  | 0, i, _ => by simp [planChunksFrom]
  | fuel + 1, i, h => by
    rw [planChunksFrom, if_neg (not_le.mpr (h i le_rfl (by omega))), List.range'_succ,
      List.map_cons]
    exact congrArg _
      (planChunksFrom_eq m eff total fuel (i + 1) fun j hj1 hj2 => h j (by omega) (by omega))

/-- Closed form of the chunk plan: for a positive stride and duration, the loop
never breaks early and produces exactly the `numChunks` planned intervals. -/
lemma plan_eq (m : ℚ) {eff total : ℚ} (heff : 0 < eff) (htot : 0 < total) :
    plan m eff total =
      (List.range' 0 (numChunks eff total)).map
        (fun (j : ℕ) => ((j : ℚ) * eff, min total ((j : ℚ) * eff + m))) := by
  rw [plan]
  exact planChunksFrom_eq m eff total (numChunks eff total) 0
    (fun j _ hj => start_lt_total heff (by omega))

lemma plan_getElem (m : ℚ) {eff total : ℚ} (heff : 0 < eff) (htot : 0 < total)
    {i : ℕ} (hi : i < numChunks eff total) :
    (plan m eff total)[i]? = some ((i : ℚ) * eff, min total ((i : ℚ) * eff + m)) := by
  rw [plan_eq m heff htot, List.getElem?_map, List.getElem?_range' 0 1 hi]
  simp

lemma lt_numChunks_of {eff total : ℚ} (heff : 0 < eff) {j : ℕ}
    (h : (j : ℚ) * eff < total) : j < numChunks eff total := by
  have htot : 0 < total := lt_of_le_of_lt (by positivity) h
  have h1 : (j : ℚ) < total / eff := (lt_div_iff heff).mpr h
  have h2 : total / eff ≤ ((numChunks eff total : ℕ) : ℚ) := by
    have := Int.le_ceil (total / eff)
    rw [numChunks]
    rw [show (((⌈total / eff⌉.toNat : ℕ)) : ℚ) = ((⌈total / eff⌉.toNat : ℤ) : ℚ) by push_cast; ring,
      Int.toNat_of_nonneg (Int.ceil_nonneg (le_of_lt (div_pos htot heff)))]
    exact this
  exact_mod_cast lt_of_lt_of_le h1 h2

lemma eff_le_maxDur {m ov : ℚ} (h1 : 0 ≤ ov) (h2 : 1 / 10 ≤ m) :
    effectiveChunkDuration m ov ≤ m :=
  max_le (by linarith) h2

/-! ### C2 -/

/-- C2: for every oversized file, the planner produces exactly
`ceil(total_duration / effective_chunk_duration)` chunks, chunk `i` running
from `i * effective_chunk_duration` to
`min(total_duration, start + max_chunk_duration)`; in particular for
`total_duration = 70`, `max_chunk_duration = 40`, `overlap_seconds = 2` it
produces exactly the chunks `[0, 40)` and `[38, 70)`. -/
theorem chunk_plan_count_and_bounds :
    (∀ (fileSize : ℕ) (total overlap : ℚ),
      CHUNK_SIZE_LIMIT < fileSize → 0 < total → 0 ≤ overlap →
      (plan (maxChunkDuration fileSize total)
          (effectiveChunkDuration (maxChunkDuration fileSize total) overlap) total).length
        = numChunks (effectiveChunkDuration (maxChunkDuration fileSize total) overlap) total ∧
      ∀ i, i < numChunks (effectiveChunkDuration (maxChunkDuration fileSize total) overlap) total →
        (plan (maxChunkDuration fileSize total)
            (effectiveChunkDuration (maxChunkDuration fileSize total) overlap) total)[i]?
          = some ((i : ℚ) * effectiveChunkDuration (maxChunkDuration fileSize total) overlap,
              min total ((i : ℚ) * effectiveChunkDuration (maxChunkDuration fileSize total) overlap
                + maxChunkDuration fileSize total))) ∧
    plan 40 (effectiveChunkDuration 40 2) 70 = [(0, 40), (38, 70)] := by
  constructor
  · intro fileSize total overlap _ htot _
    have heff := effectiveChunkDuration_pos (maxChunkDuration fileSize total) overlap
    refine ⟨?_, fun i hi => plan_getElem _ heff htot hi⟩
    rw [plan_eq _ heff htot, List.length_map, List.length_range']
  · have heq : effectiveChunkDuration 40 2 = 38 := by
      rw [effectiveChunkDuration]
      norm_num
    have hn : numChunks 38 70 = 2 := numChunks_eq_of (by norm_num) (by norm_num)
    rw [heq, plan_eq 40 (by norm_num) (by norm_num), hn,
      show List.range' 0 2 = [0, 1] from rfl]
    norm_num [min_def]

/-- Witness for C2 at a concrete oversized input (`fileSize = 2 · limit`,
`total = 100`, `overlap = 2`). -/
theorem chunk_plan_count_and_bounds_witness :
    CHUNK_SIZE_LIMIT < 50331648 ∧
    (plan (maxChunkDuration 50331648 100)
        (effectiveChunkDuration (maxChunkDuration 50331648 100) 2) 100).length
      = numChunks (effectiveChunkDuration (maxChunkDuration 50331648 100) 2) 100 :=
  ⟨by norm_num [CHUNK_SIZE_LIMIT],
    (chunk_plan_count_and_bounds.1 50331648 100 2 (by norm_num [CHUNK_SIZE_LIMIT])
      (by norm_num) (by norm_num)).1⟩

/-! ### C3 (corrected) -/

/-- C3 counterexample: an oversized input (`fileSize = 10 · limit`,
`total_duration = 1`, `overlap = 0`) on which `max_chunk_duration = 19/200`
falls below the `0.1` stride floor, so the final planned interval ends at
`199/200 < 1 = total_duration`: the plan neither covers `[0, total)` nor ends
at the total duration. -/
theorem chunk_plan_covers_counterexample :
    ((plan (maxChunkDuration (10 * CHUNK_SIZE_LIMIT) 1)
        (effectiveChunkDuration (maxChunkDuration (10 * CHUNK_SIZE_LIMIT) 1) 0)
        1).getLast?).map Prod.snd = some (199 / 200) ∧ (199 / 200 : ℚ) ≠ 1 := by
  have hm : maxChunkDuration (10 * CHUNK_SIZE_LIMIT) 1 = 19 / 200 := by
    rw [maxChunkDuration, avgBitrate, CHUNK_SIZE_LIMIT]
    norm_num
  have he : effectiveChunkDuration (19 / 200) 0 = 1 / 10 := by
    rw [effectiveChunkDuration]
    rw [max_eq_right (by norm_num)]
  have hn : numChunks (1 / 10) 1 = 10 := numChunks_eq_of (by norm_num) (by norm_num)
  rw [hm, he, plan_eq _ (by norm_num) (by norm_num), hn, List.getLast?_map,
    List.getLast?_range']
  norm_num [min_def]

/-- C3 (amended): for every oversized input whose `max_chunk_duration` is at
least the `0.1`‑second stride floor (so the stride never exceeds a chunk's
span), the planned intervals cover `[0, total_duration)` with no gaps and the
final interval's end equals `total_duration`.  (The unamended claim fails when
`max_chunk_duration` falls below the floor, see the counterexample.) -/
theorem chunk_plan_covers (fileSize : ℕ) (total overlap : ℚ)
    (hfs : CHUNK_SIZE_LIMIT < fileSize) (htot : 0 < total) (hov : 0 ≤ overlap)
    (hfloor : effectiveChunkDuration (maxChunkDuration fileSize total) overlap
      ≤ maxChunkDuration fileSize total) :
    (∀ x : ℚ, 0 ≤ x → x < total →
      ∃ p ∈ plan (maxChunkDuration fileSize total)
          (effectiveChunkDuration (maxChunkDuration fileSize total) overlap) total,
        p.1 ≤ x ∧ x < p.2) ∧
    ((plan (maxChunkDuration fileSize total)
        (effectiveChunkDuration (maxChunkDuration fileSize total) overlap)
        total).getLast?).map Prod.snd = some total := by
  set m := maxChunkDuration fileSize total with hm
  set e := effectiveChunkDuration m overlap with he
  have heff : 0 < e := effectiveChunkDuration_pos m overlap
  set n := numChunks e total with hn
  constructor
  · intro x hx0 hxt
    have hxe : 0 ≤ x / e := div_nonneg hx0 (le_of_lt heff)
    set i : ℕ := (⌊x / e⌋).toNat with hi
    have hic : ((i : ℕ) : ℚ) = ((⌊x / e⌋ : ℤ) : ℚ) := by
      rw [hi]
      rw [show (((⌊x / e⌋.toNat : ℕ)) : ℚ) = ((⌊x / e⌋.toNat : ℤ) : ℚ) by push_cast; ring,
        Int.toNat_of_nonneg (Int.floor_nonneg.mpr hxe)]
    have hle : (i : ℚ) * e ≤ x := by
      rw [← le_div_iff heff, hic]
      exact Int.floor_le _
    have hlt : x < ((i : ℚ) + 1) * e := by
      rw [← div_lt_iff heff]
      have := Int.lt_floor_add_one (x / e)
      rw [hic]
      exact_mod_cast this
    have hin : i < n := lt_numChunks_of heff (lt_of_le_of_lt hle hxt)
    refine ⟨((i : ℚ) * e, min total ((i : ℚ) * e + m)), ?_, hle, ?_⟩
    · rw [plan_eq m heff htot]
      exact List.mem_map_of_mem _ (by simp [List.mem_range'_1]; omega)
    · refine lt_min hxt ?_
      calc x < ((i : ℚ) + 1) * e := hlt
        _ = (i : ℚ) * e + e := by ring
        _ ≤ (i : ℚ) * e + m := by linarith
  · have hnpos : n ≠ 0 := by
      have := numChunks_pos heff htot
      omega
    rw [plan_eq m heff htot, List.getLast?_map, List.getLast?_range', if_neg hnpos]
    have hend : total ≤ ((0 + numChunks e total - 1 : ℕ) : ℚ) * e + m := by
      have h1 : total ≤ (n : ℚ) * e := total_le_numChunks_mul heff
      have h2 : ((0 + numChunks e total - 1 : ℕ) : ℚ) = (n : ℚ) - 1 := by
        have hpos := numChunks_pos heff htot
        have h4 : (0 + numChunks e total - 1 : ℕ) = n - 1 := by omega
        rw [h4, Nat.cast_sub (by omega : 1 ≤ n), Nat.cast_one]
      rw [h2]
      have h3 : (n : ℚ) * e = ((n : ℚ) - 1) * e + e := by ring
      linarith
    simp only [Option.map_some']
    rw [min_eq_left hend]

/-- Witness for the amended C3 at a concrete oversized input. -/
theorem chunk_plan_covers_witness :
    CHUNK_SIZE_LIMIT < 50331648 ∧
    ((plan (maxChunkDuration 50331648 100)
        (effectiveChunkDuration (maxChunkDuration 50331648 100) 2)
        100).getLast?).map Prod.snd = some 100 :=
  ⟨by norm_num [CHUNK_SIZE_LIMIT],
    (chunk_plan_covers 50331648 100 2 (by norm_num [CHUNK_SIZE_LIMIT]) (by norm_num)
      (by norm_num)
      (eff_le_maxDur (by norm_num)
        (by rw [maxChunkDuration, avgBitrate, CHUNK_SIZE_LIMIT]; norm_num))).2⟩

/-! ### C4 (corrected) -/

/-- C4 counterexample: oversized input `fileSize = 2 · limit`,
`total_duration = 2`, `overlap_seconds = 1`.  Then `max_chunk_duration =
19/20` and the stride floor engages (`effective = 1/10`), so chunks `0` and
`1` are `[0, 19/20)` and `[1/10, 21/20)` — both ends strictly inside the
total duration of `2` (neither clamped) — yet
`chunk0.end - chunk1.start = 17/20 ≠ 1 = overlap_seconds`. -/
theorem consecutive_chunk_overlap_counterexample :
    (plan (maxChunkDuration 50331648 2)
        (effectiveChunkDuration (maxChunkDuration 50331648 2) 1) 2)[0]?
      = some (0, 19 / 20) ∧
    (plan (maxChunkDuration 50331648 2)
        (effectiveChunkDuration (maxChunkDuration 50331648 2) 1) 2)[1]?
      = some (1 / 10, 21 / 20) ∧
    (19 / 20 : ℚ) < 2 ∧ (21 / 20 : ℚ) < 2 ∧
    (19 / 20 : ℚ) - 1 / 10 ≠ 1 := by
  have hm : maxChunkDuration 50331648 2 = 19 / 20 := by
    rw [maxChunkDuration, avgBitrate, CHUNK_SIZE_LIMIT]
    norm_num
  have he : effectiveChunkDuration (19 / 20) 1 = 1 / 10 := by
    rw [effectiveChunkDuration]
    rw [max_eq_right (by norm_num)]
  have hn : numChunks (1 / 10) 2 = 20 := numChunks_eq_of (by norm_num) (by norm_num)
  rw [hm, he]
  refine ⟨?_, ?_, by norm_num, by norm_num, by norm_num⟩
  · rw [plan_getElem _ (by norm_num) (by norm_num) (by rw [hn]; omega)]
    norm_num [min_def]
  · rw [plan_getElem _ (by norm_num) (by norm_num) (by rw [hn]; omega)]
    norm_num [min_def]

/-- C4 (amended): for consecutive planned chunks `i` and `i+1` that are both
fully within bounds, and **provided the stride floor is not engaged**
(`max_chunk_duration - overlap ≥ 0.1`), the overlap between chunk `i`'s end
and chunk `i+1`'s start is exactly `overlap_seconds`.  (When the floor
engages the actual overlap is `max_chunk_duration - 0.1`, see the
counterexample.) -/
theorem consecutive_chunk_overlap (fileSize : ℕ) (total overlap : ℚ) (i : ℕ)
    (hfs : CHUNK_SIZE_LIMIT < fileSize) (htot : 0 < total) (hov : 0 ≤ overlap)
    (hfloor : 1 / 10 ≤ maxChunkDuration fileSize total - overlap)
    (hin : ((i : ℚ) + 1) * effectiveChunkDuration (maxChunkDuration fileSize total) overlap
        + maxChunkDuration fileSize total ≤ total) :
    ((plan (maxChunkDuration fileSize total)
        (effectiveChunkDuration (maxChunkDuration fileSize total) overlap) total)[i]?).map
      Prod.snd = some ((i : ℚ) * effectiveChunkDuration (maxChunkDuration fileSize total) overlap
        + maxChunkDuration fileSize total) ∧
    ((plan (maxChunkDuration fileSize total)
        (effectiveChunkDuration (maxChunkDuration fileSize total) overlap) total)[i + 1]?).map
      Prod.fst = some (((i : ℚ) + 1)
        * effectiveChunkDuration (maxChunkDuration fileSize total) overlap) ∧
    ((i : ℚ) * effectiveChunkDuration (maxChunkDuration fileSize total) overlap
        + maxChunkDuration fileSize total)
      - ((i : ℚ) + 1) * effectiveChunkDuration (maxChunkDuration fileSize total) overlap
      = overlap := by
  set m := maxChunkDuration fileSize total with hm
  set e := effectiveChunkDuration m overlap with he
  have heq : e = m - overlap := max_eq_left hfloor
  have heff : 0 < e := effectiveChunkDuration_pos m overlap
  have hmpos : 0 < m := by linarith
  have hi1 : ((i : ℚ) + 1) * e < total := by nlinarith
  have hi1' : (((i + 1 : ℕ)) : ℚ) * e < total := by push_cast; exact hi1
  have hin1 : i + 1 < numChunks e total := lt_numChunks_of heff hi1'
  have hin0 : i < numChunks e total := by omega
  have hie : (i : ℚ) * e ≤ ((i : ℚ) + 1) * e := by nlinarith
  refine ⟨?_, ?_, by linarith⟩
  · rw [plan_getElem _ heff htot hin0]
    simp only [Option.map_some']
    rw [min_eq_right (by linarith)]
  · rw [plan_getElem _ heff htot hin1]
    simp only [Option.map_some']
    push_cast
    ring_nf

/-- Witness for the amended C4: `fileSize = 2 · limit`, `total = 100`,
`overlap = 2`, chunks `0` and `1`. -/
theorem consecutive_chunk_overlap_witness :
    CHUNK_SIZE_LIMIT < 50331648 ∧
    ((0 : ℚ) * effectiveChunkDuration (maxChunkDuration 50331648 100) 2
        + maxChunkDuration 50331648 100)
      - ((0 : ℚ) + 1) * effectiveChunkDuration (maxChunkDuration 50331648 100) 2
      = 2 :=
  ⟨by norm_num [CHUNK_SIZE_LIMIT],
    (consecutive_chunk_overlap 50331648 100 2 0 (by norm_num [CHUNK_SIZE_LIMIT])
      (by norm_num) (by norm_num)
      (by rw [maxChunkDuration, avgBitrate, CHUNK_SIZE_LIMIT]; norm_num)
      (by rw [effectiveChunkDuration, maxChunkDuration, avgBitrate, CHUNK_SIZE_LIMIT]
          norm_num [max_def])).2.2⟩

/-! ### Execution model of `transcribe_file` -/

/-- Oracles for the external collaborators of one `transcribe_file` run.
`directCall` is the transcription service's response to the whole file
(lines 43–47); `durationProbe` is the `ffprobe` result (lines 60–65);
`extractChunk i` is the `ffmpeg` outcome for chunk `i` (`_create_chunk_file`,
lines 122–140); `transcribeChunk i` is the service's response to chunk `i`
(lines 102–106).  Chunk files are identified by their index, mirroring the
deterministic `_part{index+1}` naming of line 125. -/
structure Env where
  fileSize : ℕ
  overlapSeconds : ℚ
  directCall : Except String String
  durationProbe : Except String ℚ
  extractChunk : ℕ → Except String Unit
  transcribeChunk : ℕ → Except String String

/-- Observable side effects of one run: how many whole-file service calls were
issued, which chunk indices were submitted to the service, which chunk files
were created, and the list of files `_cleanup_temp_files` was invoked on
(`none` when the cleanup pass never ran). -/
structure Trace where
  directCalls : ℕ
  chunkServiceCalls : List ℕ
  chunksCreated : List ℕ
  cleanupCalledOn : Option (List ℕ)
deriving DecidableEq

/-- State of the chunk loop (lines 80–111): accumulated transcripts, the
`temp_files_to_delete` list, the chunk indices submitted to the service, and
the pending fatal extraction error, if any. -/
structure LoopState where
  transcripts : List String
  tempFiles : List ℕ
  chunkCalls : List ℕ
  fatal : Option String
deriving DecidableEq

/-- The loop of lines 84–111, at chunk `i` with `fuel` iterations remaining:
break if `start_time ≥ total_duration` (line 86); create the chunk file —
a raised extraction error is fatal and leaves the loop (lines 90, 136–138) —
and register it in `temp_files_to_delete` (line 91); submit it to the
service, appending the text on success and skipping the chunk on failure
(lines 100–111). -/
def runChunks (env : Env) (total eff : ℚ) : ℕ → ℕ → LoopState → LoopState
  | _, 0, st => st
  | i, fuel + 1, st =>
    if total ≤ (i : ℚ) * eff then st
    else
      match env.extractChunk i with
      | .error e => { st with fatal := some ("Failed to create audio chunk: " ++ e) }
      | .ok _ =>
        match env.transcribeChunk i with
        | .ok t =>
          runChunks env total eff (i + 1) fuel
            { st with transcripts := st.transcripts ++ [t],
                      tempFiles := st.tempFiles ++ [i],
                      chunkCalls := st.chunkCalls ++ [i] }
        | .error _ =>
          runChunks env total eff (i + 1) fuel
            { st with tempFiles := st.tempFiles ++ [i],
                      chunkCalls := st.chunkCalls ++ [i] }

/-- Function `_transcribe_large_file` (lines 57–120): probe the duration (fatal on
failure, lines 59–69), plan and process the chunks, run cleanup on
`temp_files_to_delete` on every exit path of the loop (the `finally` of
lines 113–114), then raise if no chunk succeeded (lines 116–117) or return
the space-joined transcripts (line 120). -/
def transcribeLargeFile (env : Env) : Except String String × Trace :=
  match env.durationProbe with
  | .error e =>
    (.error ("Failed to get audio duration: " ++ e),
      { directCalls := 0, chunkServiceCalls := [], chunksCreated := [],
        cleanupCalledOn := none })
  | .ok total =>
    let eff := effectiveChunkDuration (maxChunkDuration env.fileSize total) env.overlapSeconds
    let st := runChunks env total eff 0 (numChunks eff total)
      { transcripts := [], tempFiles := [], chunkCalls := [], fatal := none }
    let tr : Trace :=
      { directCalls := 0, chunkServiceCalls := st.chunkCalls,
        chunksCreated := st.tempFiles, cleanupCalledOn := some st.tempFiles }
    match st.fatal with
    | some e => (.error e, tr)
    | none =>
      if st.transcripts = [] then
        (.error "Transcription failed: no chunks could be transcribed successfully", tr)
      else
        (.ok (String.intercalate " " st.transcripts), tr)

/-- Function `transcribe_file` (lines 18–55): the 24 MiB decision gate of line 40,
with the direct single-request path of lines 40–52. -/
def transcribeFile (env : Env) : Except String String × Trace :=
  if env.fileSize ≤ CHUNK_SIZE_LIMIT then
    match env.directCall with
    | .ok t =>
      (.ok t, { directCalls := 1, chunkServiceCalls := [], chunksCreated := [],
                cleanupCalledOn := none })
    | .error e =>
      (.error ("Direct transcription failed: " ++ e),
        { directCalls := 1, chunkServiceCalls := [], chunksCreated := [],
          cleanupCalledOn := none })
  else transcribeLargeFile env

/-! ### C1 -/

/-- C1: for every file at or below the 24 MiB threshold whose (single)
service call succeeds, `transcribe_file` issues exactly one transcription
call, returns its text unmodified, creates no chunks and no temporary files,
and never runs the cleanup pass. -/
theorem direct_path_single_call (env : Env) (t : String)
    (hsize : env.fileSize ≤ CHUNK_SIZE_LIMIT) (hok : env.directCall = .ok t) :
    transcribeFile env =
      (.ok t, { directCalls := 1, chunkServiceCalls := [], chunksCreated := [],
                cleanupCalledOn := none }) := by
  rw [transcribeFile, if_pos hsize, hok]

/-- Witness for C1 at a concrete small file. -/
theorem direct_path_single_call_witness :
    transcribeFile
      { fileSize := 1024, overlapSeconds := 2, directCall := .ok "hello world",
        durationProbe := .error "unused", extractChunk := fun _ => .ok (),
        transcribeChunk := fun _ => .error "unused" } =
      (.ok "hello world",
        { directCalls := 1, chunkServiceCalls := [], chunksCreated := [],
          cleanupCalledOn := none }) :=
  direct_path_single_call _ "hello world" (by norm_num [CHUNK_SIZE_LIMIT]) rfl

/-! ### C10 -/

/-- C10: on the direct (non-chunked) path, a failing service call is caught
and re-raised as the terminal error type with a cause string
(`RuntimeError`, line 52), with no retry (still exactly one service call)
and no fallback to chunking (no chunks created, no chunk service calls). -/
theorem direct_path_error_terminal (env : Env) (e : String)
    (hsize : env.fileSize ≤ CHUNK_SIZE_LIMIT) (herr : env.directCall = .error e) :
    transcribeFile env =
      (.error ("Direct transcription failed: " ++ e),
        { directCalls := 1, chunkServiceCalls := [], chunksCreated := [],
          cleanupCalledOn := none }) := by
  rw [transcribeFile, if_pos hsize, herr]

/-- Witness for C10 at a concrete small file whose service call raises. -/
theorem direct_path_error_terminal_witness :
    transcribeFile
      { fileSize := 1024, overlapSeconds := 2, directCall := .error "rate limit exceeded",
        durationProbe := .error "unused", extractChunk := fun _ => .ok (),
        transcribeChunk := fun _ => .error "unused" } =
      (.error "Direct transcription failed: rate limit exceeded",
        { directCalls := 1, chunkServiceCalls := [], chunksCreated := [],
          cleanupCalledOn := none }) :=
  direct_path_error_terminal _ "rate limit exceeded" (by norm_num [CHUNK_SIZE_LIMIT]) rfl

/-! ### Chunk-loop lemmas -/

@[simp] lemma toOption_ok {ε α : Type} (x : α) :
    (Except.ok x : Except ε α).toOption = some x := rfl

@[simp] lemma toOption_error {ε α : Type} (x : ε) :
    (Except.error x : Except ε α).toOption = none := rfl

/-- When no break and no extraction failure occurs in the window
`[i, i + fuel)`, the loop visits every index: each chunk file is created and
submitted, and the transcripts are the successful responses in order. -/
lemma runChunks_ok (env : Env) (total eff : ℚ) :
    ∀ (fuel i : ℕ) (st : LoopState),
      (∀ j, i ≤ j → j < i + fuel → (j : ℚ) * eff < total ∧ env.extractChunk j = .ok ()) →
      runChunks env total eff i fuel st =
        { transcripts := st.transcripts ++
            (List.range' i fuel).filterMap (fun j => (env.transcribeChunk j).toOption),
          tempFiles := st.tempFiles ++ List.range' i fuel,
          chunkCalls := st.chunkCalls ++ List.range' i fuel,
          fatal := st.fatal }
  | 0, i, st, _ => by simp [runChunks]
  | fuel + 1, i, st, h => by
    obtain ⟨hb, he⟩ := h i le_rfl (by omega)
    have hrec := fun st2 => runChunks_ok env total eff fuel (i + 1) st2
      (fun j h1 h2 => h j (by omega) (by omega))
    cases ht : env.transcribeChunk i with
    | ok t =>
      simp only [runChunks, not_le.mpr hb, if_false, he, ht, hrec]
      simp [List.range'_succ, List.filterMap_cons, ht]
    | error e =>
      simp only [runChunks, not_le.mpr hb, if_false, he, ht, hrec]
      simp [List.range'_succ, List.filterMap_cons, ht]

/-- When extraction of chunk `i + d` raises after `d` clean iterations, the
loop stops with the fatal error; exactly the `d` earlier chunk files are in
`temp_files_to_delete`, and chunk `i + d` itself is not (it was never
created). -/
lemma runChunks_fatal (env : Env) (total eff : ℚ) (e : String) (d : ℕ) :
    ∀ (fuel i : ℕ) (st : LoopState), d < fuel →
      (∀ j, i ≤ j → j < i + d → (j : ℚ) * eff < total ∧ env.extractChunk j = .ok ()) →
      ((i + d : ℕ) : ℚ) * eff < total →
      env.extractChunk (i + d) = .error e →
      runChunks env total eff i fuel st =
        { transcripts := st.transcripts ++
            (List.range' i d).filterMap (fun j => (env.transcribeChunk j).toOption),
          tempFiles := st.tempFiles ++ List.range' i d,
          chunkCalls := st.chunkCalls ++ List.range' i d,
          fatal := some ("Failed to create audio chunk: " ++ e) } := by
  induction d with
  | zero =>
    intro fuel i st hd h hb hext
    obtain ⟨f, rfl⟩ : ∃ f, fuel = f + 1 := ⟨fuel - 1, by omega⟩
    have hb' : (i : ℚ) * eff < total := by simpa using hb
    have hext' : env.extractChunk i = .error e := by simpa using hext
    simp only [runChunks, not_le.mpr hb', if_false, hext']
    simp
  | succ d ih =>
    intro fuel i st hd h hb hext
    obtain ⟨f, rfl⟩ : ∃ f, fuel = f + 1 := ⟨fuel - 1, by omega⟩
    obtain ⟨hb0, he0⟩ := h i le_rfl (by omega)
    have harith : i + 1 + d = i + (d + 1) := by omega
    have hrec := fun st2 => ih f (i + 1) st2 (by omega)
      (fun j h1 h2 => h j (by omega) (by omega))
      (by rw [harith]; exact hb) (by rw [harith]; exact hext)
    cases ht : env.transcribeChunk i with
    | ok t =>
      simp only [runChunks, not_le.mpr hb0, if_false, he0, ht, hrec]
      simp [List.range'_succ, List.filterMap_cons, ht]
    | error e2 =>
      simp only [runChunks, not_le.mpr hb0, if_false, he0, ht, hrec]
      simp [List.range'_succ, List.filterMap_cons, ht]

/-- Dropping the failed index `k` from the collected transcripts: the
successful responses of a window in which every index but `k` succeeds. -/
lemma filterMap_toOption_eq (trans : ℕ → Except String String) (ts : ℕ → String) (k : ℕ)
    (hk : (trans k).toOption = none) :
    ∀ l : List ℕ, (∀ i ∈ l, i ≠ k → trans i = .ok (ts i)) →
      l.filterMap (fun i => (trans i).toOption)
        = l.filterMap (fun i => if i = k then none else some (ts i))
  | [], _ => rfl
  | i :: l, h => by
    have htail := filterMap_toOption_eq trans ts k hk l
      (fun j hj => h j (List.mem_cons_of_mem _ hj))
    by_cases hik : i = k
    · subst hik
      simp [List.filterMap_cons, hk, htail]
    · have hok := h i (List.mem_cons_self i l) hik
      simp [List.filterMap_cons, hok, hik, htail]

lemma filterMap_drop_ne_nil (ts : ℕ → String) (k n : ℕ) (hn : 2 ≤ n) :
    (List.range n).filterMap (fun i => if i = k then none else some (ts i)) ≠ [] := by
  intro hempty
  rw [List.filterMap_eq_nil_iff] at hempty
  by_cases hk : k = 0
  · have h1 := hempty 1 (List.mem_range.mpr (by omega))
    rw [if_neg (by omega)] at h1
    exact Option.some_ne_none _ h1
  · have h0 := hempty 0 (List.mem_range.mpr (by omega))
    rw [if_neg (by omega)] at h0
    exact Option.some_ne_none _ h0

/-! ### C6 -/

/-- C6: on the chunked path, when every planned chunk's transcription call
raises, the operation raises the terminal error with its human-readable
cause, returns no partial transcript, and the cleanup pass still runs over
all `N` created temp files before the error surfaces. -/
theorem all_chunks_fail_terminal (env : Env) (total : ℚ) (errf : ℕ → String)
    (hfs : CHUNK_SIZE_LIMIT < env.fileSize) (hdur : env.durationProbe = .ok total)
    (htot : 0 < total)
    (hex : ∀ i, i < numChunks
        (effectiveChunkDuration (maxChunkDuration env.fileSize total) env.overlapSeconds)
        total → env.extractChunk i = .ok ())
    (hfail : ∀ i, i < numChunks
        (effectiveChunkDuration (maxChunkDuration env.fileSize total) env.overlapSeconds)
        total → env.transcribeChunk i = .error (errf i)) :
    transcribeFile env =
      (.error "Transcription failed: no chunks could be transcribed successfully",
        { directCalls := 0,
          chunkServiceCalls := List.range (numChunks
            (effectiveChunkDuration (maxChunkDuration env.fileSize total) env.overlapSeconds)
            total),
          chunksCreated := List.range (numChunks
            (effectiveChunkDuration (maxChunkDuration env.fileSize total) env.overlapSeconds)
            total),
          cleanupCalledOn := some (List.range (numChunks
            (effectiveChunkDuration (maxChunkDuration env.fileSize total) env.overlapSeconds)
            total)) }) := by
  set eff := effectiveChunkDuration (maxChunkDuration env.fileSize total) env.overlapSeconds
    with heff_def
  have heff : 0 < eff := effectiveChunkDuration_pos _ _
  have hrun := runChunks_ok env total eff (numChunks eff total) 0
    ⟨[], [], [], none⟩
    (fun j h1 h2 => ⟨start_lt_total heff (by omega), hex j (by omega)⟩)
  have htr : (List.range' 0 (numChunks eff total)).filterMap
      (fun j => (env.transcribeChunk j).toOption) = [] := by
    rw [List.filterMap_eq_nil_iff]
    intro a ha
    have hlt : a < numChunks eff total := by
      have := List.mem_range'_1.mp ha
      omega
    rw [hfail a hlt]
    rfl
  rw [transcribeFile, if_neg (not_le.mpr hfs)]
  simp only [transcribeLargeFile, hdur]
  rw [hrun]
  simp [htr, List.range_eq_range']

/-- Witness for C6: `fileSize = 2 · limit`, `total = 100`, `overlap = 2`
gives 3 planned chunks; every chunk transcription raises. -/
theorem all_chunks_fail_terminal_witness :
    numChunks (effectiveChunkDuration (maxChunkDuration 50331648 100) 2) 100 = 3 ∧
    transcribeFile
      { fileSize := 50331648, overlapSeconds := 2, directCall := .ok "unused",
        durationProbe := .ok 100, extractChunk := fun _ => .ok (),
        transcribeChunk := fun _ => .error "rate limit" } =
      (.error "Transcription failed: no chunks could be transcribed successfully",
        { directCalls := 0,
          chunkServiceCalls := List.range (numChunks
            (effectiveChunkDuration (maxChunkDuration 50331648 100) 2) 100),
          chunksCreated := List.range (numChunks
            (effectiveChunkDuration (maxChunkDuration 50331648 100) 2) 100),
          cleanupCalledOn := some (List.range (numChunks
            (effectiveChunkDuration (maxChunkDuration 50331648 100) 2) 100)) }) := by
  constructor
  · rw [show effectiveChunkDuration (maxChunkDuration 50331648 100) 2 = 91 / 2 by
      rw [effectiveChunkDuration, maxChunkDuration, avgBitrate, CHUNK_SIZE_LIMIT]
      norm_num [max_def]]
    exact numChunks_eq_of (by norm_num) (by norm_num)
  · exact all_chunks_fail_terminal
      { fileSize := 50331648, overlapSeconds := 2, directCall := .ok "unused",
        durationProbe := .ok 100, extractChunk := fun _ => .ok (),
        transcribeChunk := fun _ => .error "rate limit" }
      100 (fun _ => "rate limit") (by norm_num [CHUNK_SIZE_LIMIT]) rfl (by norm_num)
      (fun i _ => rfl) (fun i _ => rfl)

/-! ### C7 -/

/-- C7: when extraction of a later chunk `k` raises, the fatal error
propagates out of the whole operation, and the cleanup pass still runs —
over exactly the `k` chunk files already created before the error surfaced
(the failing chunk's file was never registered). -/
theorem extraction_failure_cleanup (env : Env) (total : ℚ) (k : ℕ) (e : String)
    (hfs : CHUNK_SIZE_LIMIT < env.fileSize) (hdur : env.durationProbe = .ok total)
    (htot : 0 < total)
    (hk : k < numChunks
      (effectiveChunkDuration (maxChunkDuration env.fileSize total) env.overlapSeconds) total)
    (hex : ∀ i, i < k → env.extractChunk i = .ok ())
    (hfail : env.extractChunk k = .error e) :
    transcribeFile env =
      (.error ("Failed to create audio chunk: " ++ e),
        { directCalls := 0, chunkServiceCalls := List.range k,
          chunksCreated := List.range k,
          cleanupCalledOn := some (List.range k) }) := by
  set eff := effectiveChunkDuration (maxChunkDuration env.fileSize total) env.overlapSeconds
    with heff_def
  have heff : 0 < eff := effectiveChunkDuration_pos _ _
  have hrun := runChunks_fatal env total eff e k (numChunks eff total) 0
    ⟨[], [], [], none⟩ hk
    (fun j h1 h2 => ⟨start_lt_total heff (by omega), hex j (by omega)⟩)
    (by
      have : ((0 + k : ℕ) : ℚ) * eff < total := by
        rw [show (0 + k : ℕ) = k by omega]
        exact start_lt_total heff hk
      exact this)
    (by rw [show (0 + k : ℕ) = k by omega]; exact hfail)
  rw [transcribeFile, if_neg (not_le.mpr hfs)]
  simp only [transcribeLargeFile, hdur]
  rw [hrun]
  simp [List.range_eq_range']

/-- Witness for C7: 3 planned chunks; extraction of chunk `1` raises after
chunk `0` was created, so cleanup runs over exactly `[0]`. -/
theorem extraction_failure_cleanup_witness :
    numChunks (effectiveChunkDuration (maxChunkDuration 50331648 100) 2) 100 = 3 ∧
    List.range 1 = [0] ∧
    transcribeFile
      { fileSize := 50331648, overlapSeconds := 2, directCall := .ok "unused",
        durationProbe := .ok 100,
        extractChunk := fun i => if i = 1 then .error "disk full" else .ok (),
        transcribeChunk := fun _ => .ok "text" } =
      (.error ("Failed to create audio chunk: " ++ "disk full"),
        { directCalls := 0, chunkServiceCalls := List.range 1,
          chunksCreated := List.range 1,
          cleanupCalledOn := some (List.range 1) }) := by
  have hn3 : numChunks (effectiveChunkDuration (maxChunkDuration 50331648 100) 2) 100 = 3 := by
    rw [show effectiveChunkDuration (maxChunkDuration 50331648 100) 2 = 91 / 2 by
      rw [effectiveChunkDuration, maxChunkDuration, avgBitrate, CHUNK_SIZE_LIMIT]
      norm_num [max_def]]
    exact numChunks_eq_of (by norm_num) (by norm_num)
  refine ⟨hn3, rfl, ?_⟩
  exact extraction_failure_cleanup
    { fileSize := 50331648, overlapSeconds := 2, directCall := .ok "unused",
      durationProbe := .ok 100,
      extractChunk := fun i => if i = 1 then .error "disk full" else .ok (),
      transcribeChunk := fun _ => .ok "text" }
    100 1 "disk full" (by norm_num [CHUNK_SIZE_LIMIT]) rfl (by norm_num)
    (by rw [hn3]; omega)
    (fun i hi => by
      have : i = 0 := by omega
      subst this
      rfl)
    rfl

/-! ### C5 (corrected) -/

/-- C5 counterexample: an oversized file (`fileSize = 2 · limit`) with a
tiny probed duration (`1/20` s) yields exactly `N = 1` planned chunk.  That
single chunk's transcription call raises — so "exactly one of N chunks fails
and the other N−1 succeed" holds — yet `transcribe_file` does **not** return
the space-joined text of the zero remaining fragments: it raises the
terminal no-chunks-succeeded error. -/
theorem one_chunk_failure_tolerated_counterexample :
    numChunks (effectiveChunkDuration (maxChunkDuration 50331648 (1 / 20)) 2) (1 / 20) = 1 ∧
    (transcribeFile
      { fileSize := 50331648, overlapSeconds := 2, directCall := .ok "unused",
        durationProbe := .ok (1 / 20), extractChunk := fun _ => .ok (),
        transcribeChunk := fun _ => .error "boom" }).1 =
      .error "Transcription failed: no chunks could be transcribed successfully" := by
  have hn1 : numChunks (effectiveChunkDuration (maxChunkDuration 50331648 (1 / 20)) 2)
      (1 / 20) = 1 := by
    rw [show effectiveChunkDuration (maxChunkDuration 50331648 (1 / 20)) 2 = 1 / 10 by
      rw [effectiveChunkDuration, maxChunkDuration, avgBitrate, CHUNK_SIZE_LIMIT]
      norm_num [max_def]]
    exact numChunks_eq_of (by norm_num) (by norm_num)
  refine ⟨hn1, ?_⟩
  have heff : 0 < effectiveChunkDuration (maxChunkDuration 50331648 (1 / 20)) 2 :=
    effectiveChunkDuration_pos _ _
  have hrun := runChunks_ok
    { fileSize := 50331648, overlapSeconds := 2, directCall := .ok "unused",
      durationProbe := .ok (1 / 20), extractChunk := fun _ => .ok (),
      transcribeChunk := fun _ => .error "boom" }
    (1 / 20) (effectiveChunkDuration (maxChunkDuration 50331648 (1 / 20)) 2)
    (numChunks (effectiveChunkDuration (maxChunkDuration 50331648 (1 / 20)) 2) (1 / 20)) 0
    ⟨[], [], [], none⟩
    (fun j h1 h2 => ⟨start_lt_total heff (by omega), rfl⟩)
  rw [transcribeFile, if_neg (by norm_num [CHUNK_SIZE_LIMIT])]
  simp only [transcribeLargeFile]
  rw [hrun]
  simp

/-- C5 (amended): if exactly one of `N ≥ 2` planned chunks fails its
transcription call and the other `N − 1` succeed, `transcribe_file` raises
no error and returns the space-joined text of the `N − 1` successful
fragments in original chunk order, with no placeholder for the failed chunk.
(The unamended claim fails at `N = 1`, where zero successes raise the
terminal error — see the counterexample.) -/
theorem one_chunk_failure_tolerated (env : Env) (total : ℚ) (k : ℕ) (ts : ℕ → String)
    (e : String)
    (hfs : CHUNK_SIZE_LIMIT < env.fileSize) (hdur : env.durationProbe = .ok total)
    (htot : 0 < total)
    (hn : 2 ≤ numChunks
      (effectiveChunkDuration (maxChunkDuration env.fileSize total) env.overlapSeconds) total)
    (hk : k < numChunks
      (effectiveChunkDuration (maxChunkDuration env.fileSize total) env.overlapSeconds) total)
    (hex : ∀ i, i < numChunks
        (effectiveChunkDuration (maxChunkDuration env.fileSize total) env.overlapSeconds)
        total → env.extractChunk i = .ok ())
    (hsucc : ∀ i, i < numChunks
        (effectiveChunkDuration (maxChunkDuration env.fileSize total) env.overlapSeconds)
        total → i ≠ k → env.transcribeChunk i = .ok (ts i))
    (hfail : env.transcribeChunk k = .error e) :
    (transcribeFile env).1 = .ok (String.intercalate " "
      ((List.range (numChunks
          (effectiveChunkDuration (maxChunkDuration env.fileSize total) env.overlapSeconds)
          total)).filterMap
        (fun i => if i = k then none else some (ts i)))) := by
  set eff := effectiveChunkDuration (maxChunkDuration env.fileSize total) env.overlapSeconds
    with heff_def
  have heff : 0 < eff := effectiveChunkDuration_pos _ _
  have hrun := runChunks_ok env total eff (numChunks eff total) 0
    ⟨[], [], [], none⟩
    (fun j h1 h2 => ⟨start_lt_total heff (by omega), hex j (by omega)⟩)
  have htr : (List.range' 0 (numChunks eff total)).filterMap
      (fun j => (env.transcribeChunk j).toOption)
      = (List.range (numChunks eff total)).filterMap
        (fun i => if i = k then none else some (ts i)) := by
    rw [← List.range_eq_range']
    exact filterMap_toOption_eq env.transcribeChunk ts k (by rw [hfail]; rfl)
      (List.range (numChunks eff total))
      (fun i hi hik => hsucc i (List.mem_range.mp hi) hik)
  have hne := filterMap_drop_ne_nil ts k (numChunks eff total) hn
  rw [transcribeFile, if_neg (not_le.mpr hfs)]
  simp only [transcribeLargeFile, hdur]
  rw [hrun]
  simp [htr, hne]

/-- Witness for the amended C5: 3 planned chunks, chunk `1` fails, chunks
`0` and `2` return `"x"`; the result is the space-join of the two surviving
fragments. -/
theorem one_chunk_failure_tolerated_witness :
    numChunks (effectiveChunkDuration (maxChunkDuration 50331648 100) 2) 100 = 3 ∧
    (transcribeFile
      { fileSize := 50331648, overlapSeconds := 2, directCall := .ok "unused",
        durationProbe := .ok 100, extractChunk := fun _ => .ok (),
        transcribeChunk := fun i => if i = 1 then .error "boom" else .ok "x" }).1 =
      .ok (String.intercalate " "
        ((List.range (numChunks
            (effectiveChunkDuration (maxChunkDuration 50331648 100) 2) 100)).filterMap
          (fun i => if i = 1 then none else some "x"))) := by
  have hn3 : numChunks (effectiveChunkDuration (maxChunkDuration 50331648 100) 2) 100 = 3 := by
    rw [show effectiveChunkDuration (maxChunkDuration 50331648 100) 2 = 91 / 2 by
      rw [effectiveChunkDuration, maxChunkDuration, avgBitrate, CHUNK_SIZE_LIMIT]
      norm_num [max_def]]
    exact numChunks_eq_of (by norm_num) (by norm_num)
  refine ⟨hn3, ?_⟩
  exact one_chunk_failure_tolerated
    { fileSize := 50331648, overlapSeconds := 2, directCall := .ok "unused",
      durationProbe := .ok 100, extractChunk := fun _ => .ok (),
      transcribeChunk := fun i => if i = 1 then .error "boom" else .ok "x" }
    100 1 (fun _ => "x") "boom" (by norm_num [CHUNK_SIZE_LIMIT]) rfl (by norm_num)
    (by rw [hn3]; omega) (by rw [hn3]; omega)
    (fun i _ => rfl)
    (fun i _ hik => by simp [hik])
    (by simp)

/-! ### Cleanup model (`_cleanup_temp_files`, lines 142–186) -/

/-- Outcome classes of one `temp_path.unlink()` call (lines 157–181):
success, `PermissionError` (the transient sharing-violation class),
`FileNotFoundError`, or any other exception (the catch-all handler of
line 178). -/
inductive UnlinkOutcome
  | ok
  | permissionError
  | fileNotFound
  | otherError
deriving DecidableEq

/-- Constant `max_retries = 3`, line 154. -/
def maxRetries : ℕ := 3

/-- Filesystem oracle for the cleanup pass: whether each file still exists
at cleanup time (the `temp_path.exists()` check of line 151), and the
outcome of its `attempt`‑th deletion attempt. -/
structure TempFS where
  fileExists : ℕ → Bool
  unlinkResult : ℕ → ℕ → UnlinkOutcome

/-- The retry loop of lines 157–181 for one file, returning
`(failed_deletions increment, number of unlink calls made)`.  A
`PermissionError` is retried only on win32 and only while attempts remain
(lines 163–170); `FileNotFoundError` means the file is already gone and is
not an error (lines 174–177); any other exception counts one failed
deletion and stops (lines 178–181), as does an exhausted `PermissionError`.
Every exception class has a handler, so the loop itself never raises. -/
def deleteLoop (isWin32 : Bool) (outcome : ℕ → UnlinkOutcome) :
    ℕ → ℕ → ℕ × ℕ
  | _, 0 => (0, 0)
  | attempt, remaining + 1 =>
    match outcome attempt with
    | .ok => (0, 1)
    | .fileNotFound => (0, 1)
    | .otherError => (1, 1)
    | .permissionError =>
      if isWin32 = true ∧ attempt < maxRetries - 1 then
        ((deleteLoop isWin32 outcome (attempt + 1) remaining).1,
          (deleteLoop isWin32 outcome (attempt + 1) remaining).2 + 1)
      else (1, 1)

/-- Per-file cleanup (lines 150–181): a file that no longer exists is
skipped outright with no unlink call (lines 151–152); otherwise the retry
loop runs from attempt `0` with `max_retries` iterations available. -/
def cleanupOne (isWin32 : Bool) (fs : TempFS) (p : ℕ) : ℕ × ℕ :=
  if fs.fileExists p then deleteLoop isWin32 (fs.unlinkResult p) 0 maxRetries
  else (0, 0)

/-- The accumulated `failed_deletions` count of `_cleanup_temp_files` over
the whole list (lines 148–184); it is only reported in a summary log, never
raised. -/
def cleanupFailedDeletions (isWin32 : Bool) (fs : TempFS) (paths : List ℕ) : ℕ :=
  (paths.map (fun p => (cleanupOne isWin32 fs p).1)).sum

/-! ### C8 -/

/-- C8: cleanup of a file that no longer exists never raises (the model is a
total function: the `exists` check skips it before any unlink call), makes
no deletion attempt, and never increments the failed-deletion counter —
wherever the file sits in the cleanup list. -/
theorem cleanup_absent_file_noop (isWin32 : Bool) (fs : TempFS) (p : ℕ)
    (hp : fs.fileExists p = false) :
    cleanupOne isWin32 fs p = (0, 0) ∧
    ∀ l₁ l₂ : List ℕ,
      cleanupFailedDeletions isWin32 fs (l₁ ++ p :: l₂)
        = cleanupFailedDeletions isWin32 fs (l₁ ++ l₂) := by
  have h1 : cleanupOne isWin32 fs p = (0, 0) := by
    simp [cleanupOne, hp]
  refine ⟨h1, fun l₁ l₂ => ?_⟩
  rw [cleanupFailedDeletions, cleanupFailedDeletions]
  simp [h1]

/-- Witness for C8: an absent file in the middle of a cleanup list
contributes nothing. -/
theorem cleanup_absent_file_noop_witness :
    TempFS.fileExists ⟨fun _ => false, fun _ _ => .ok⟩ 5 = false ∧
    cleanupFailedDeletions false ⟨fun _ => false, fun _ _ => .ok⟩ ([1] ++ 5 :: [2])
      = cleanupFailedDeletions false ⟨fun _ => false, fun _ _ => .ok⟩ ([1] ++ [2]) :=
  ⟨rfl, (cleanup_absent_file_noop false ⟨fun _ => false, fun _ _ => .ok⟩ 5 rfl).2 [1] [2]⟩

/-! ### C9 (corrected) -/

/-- C9 counterexample: a deletion error outside the sharing-violation class
(the catch-all `except Exception` of lines 178–181) **does** count toward
the failed-deletion total: for a file whose first unlink raises such an
error, the cleanup pass reports `1` failed deletion, not `0` as the claim
states. -/
theorem cleanup_other_error_resolved_counterexample :
    TempFS.unlinkResult ⟨fun _ => true, fun _ _ => .otherError⟩ 0 0 = .otherError ∧
    cleanupFailedDeletions false ⟨fun _ => true, fun _ _ => .otherError⟩ [0] = 1 ∧
    (1 : ℕ) ≠ 0 :=
  ⟨rfl, rfl, by omega⟩

/-- C9 (amended): during cleanup, a deletion error other than the transient
sharing-violation class (and other than not-found) is never raised and never
retried, but it **increments the failed-deletion total by one** (one unlink
call, one counted failure); only a not-found error or an already-absent file
is treated as resolved without counting. -/
theorem cleanup_other_error_counted (isWin32 : Bool) (fs : TempFS) (p : ℕ)
    (hp : fs.fileExists p = true) (h0 : fs.unlinkResult p 0 = .otherError) :
    cleanupOne isWin32 fs p = (1, 1) := by
  rw [cleanupOne, hp, show maxRetries = 2 + 1 from rfl]
  simp only [if_true]
  simp [deleteLoop, h0]

/-- Witness for the amended C9. -/
theorem cleanup_other_error_counted_witness :
    TempFS.fileExists ⟨fun _ => true, fun _ _ => .otherError⟩ 3 = true ∧
    cleanupOne true ⟨fun _ => true, fun _ _ => .otherError⟩ 3 = (1, 1) :=
  ⟨rfl, cleanup_other_error_counted true ⟨fun _ => true, fun _ _ => .otherError⟩ 3 rfl rfl⟩

end TrackGPT
